import Mathlib

/-!
# Verification of the A4N node-attribute store (src/A4N/Attributes.hpp)

Shallow embedding of the attribute-storage engine of the A4N repository:
the type-erased registry (`NodeAttributeMap`), the typed sparse columns
(`NodeAttributeStorage<T>`), the accessor handles (`NodeAttribute<T>`) and
the value iterator (`NodeAttribute<T>::Iterator`).

Modelling conventions:
* `index` is `size_t`; indices are modelled as `Nat`.  The member
  `validElements` is a `size_t` counter on which unsigned wrap-around
  matters (`--validElements` underflows at 0), so it is kept as a `Nat`
  reduced modulo `2 ^ 64` at every update.
* `std::vector<T> values` and `std::vector<bool> valid` are `List T` and
  `List Bool`; `resize` pads with the default-constructed element
  (`false` for `vector<bool>`, `default` for `vector<T>`).
* C++ exceptions are modelled with `Except AttrError`; mutating registry
  operations return the resulting registry alongside the outcome, so a
  throwing call also documents the state it leaves behind.
* The runtime type tags (`std::type_index`) of the attribute types that
  occur in the repository are the inductive `Ty`; the erased value
  universe `Val` carries one constructor per tag.  `double` payloads are
  modelled opaquely (as integers): no claim performs floating-point
  arithmetic, values are only stored and retrieved.
-/

namespace A4N

/-- `size_t` wraps modulo `2 ^ 64`. -/
def W : Nat := 2 ^ 64

/-- Runtime type tags (`std::type_index`) of the attribute types used by the
repository: `int`, `Point` and `double`. -/
inductive Ty where
  | tInt
  | tPoint
  | tDouble
deriving DecidableEq, Repr

/-- Type-erased attribute values, one constructor per tag.  `double`
payloads are opaque scalars: the claims never compute with them. -/
inductive Val where
  | vInt (n : Int)
  | vPoint (x y : Int)
  | vDouble (q : Int)
deriving DecidableEq, Repr

instance : Inhabited Val := ⟨Val.vInt 0⟩

/-- The `std::runtime_error`s thrown by the code, by message:
`duplicateName` = "Attribute with same name already exists",
`notFound` = "No such attribute",
`typeMismatch` = "Type mismatch in nodeAttributes().get()",
`handleInvalid` = "Invalid attribute" (from `checkAttribute`),
`notSet` = "Invalid attribute value" (from `checkIndex`),
`iterInvalid` = "Invalid attribute iterator".
`bad` marks accesses that are undefined behaviour in C++ (dereferencing an
object that does not exist); it never occurs on reachable states. -/
inductive AttrError where
  | duplicateName
  | notFound
  | typeMismatch
  | handleInvalid
  | notSet
  | iterInvalid
  | bad
deriving DecidableEq, Repr

/-- One column: `NodeAttributeStorage<T>` merged with its base class
`NodeAttributeStorageBase`.  The base class holds `name`, `type`, the
validity bitmap `valid` and the counter `validElements`; the derived class
adds the value vector `values` and the registered-handle set `attrSet`
(modelled as the list of handle ids registered with this column). -/
structure NodeAttributeStorage (T : Type) where
  name : String
  type : Ty
  values : List T
  valid : List Bool
  validElements : Nat
  attrSet : List Nat
deriving Repr

namespace NodeAttributeStorage

variable {T : Type}

/-- A fresh, empty column, as built by `NodeAttributeStorage<T>(name)`. -/
def emptyCol (name : String) (type : Ty) : NodeAttributeStorage T :=
  { name := name, type := type, values := [], valid := [],
    validElements := 0, attrSet := [] }

/-- `NodeAttributeStorageBase::isValid`:
`return i < valid.size() && valid[i];`. -/
def isValid (s : NodeAttributeStorage T) (i : Nat) : Bool :=
  decide (i < s.valid.length) && s.valid.getD i false

/-- `NodeAttributeStorageBase::invalidate`: clears `valid[i]` when `i` is in
range, and decrements `validElements` unconditionally (size_t arithmetic,
so decrementing 0 wraps to `2 ^ 64 - 1`). -/
def invalidate (s : NodeAttributeStorage T) (i : Nat) : NodeAttributeStorage T :=
  { s with
    valid := if i < s.valid.length then s.valid.set i false else s.valid,
    validElements := (s.validElements + (W - 1)) % W }

/-- `NodeAttributeStorageBase::markValid`: grows `valid` to length `i + 1`
when needed (`vector<bool>::resize` pads with `false`), sets `valid[i]`,
and increments `validElements` unconditionally. -/
def markValid (s : NodeAttributeStorage T) (i : Nat) : NodeAttributeStorage T :=
  let grown := if s.valid.length ≤ i
    then s.valid ++ List.replicate (i + 1 - s.valid.length) false
    else s.valid
  { s with
    valid := grown.set i true,
    validElements := (s.validElements + 1) % W }

/-- `NodeAttributeStorage<T>::resize`: grows `values` to length `i + 1` when
needed, padding with default-constructed elements. -/
def resize [Inhabited T] (s : NodeAttributeStorage T) (i : Nat) : NodeAttributeStorage T :=
  if s.values.length ≤ i
  then { s with values := s.values ++ List.replicate (i + 1 - s.values.length) default }
  else s

/-- `NodeAttributeStorage<T>::size`: `return validElements;`. -/
def size (s : NodeAttributeStorage T) : Nat :=
  s.validElements

/-- `NodeAttributeStorage<T>::set`: `resize(i); values[i] = v; markValid(i);`. -/
def set [Inhabited T] (s : NodeAttributeStorage T) (i : Nat) (v : T) : NodeAttributeStorage T :=
  let s1 := s.resize i
  ({ s1 with values := s1.values.set i v }).markValid i

/-- `NodeAttributeStorage<T>::get`:
`if (i >= values.size() || !isValid(i)) return nullopt; return values[i];`. -/
def get [Inhabited T] (s : NodeAttributeStorage T) (i : Nat) : Option T :=
  if s.values.length ≤ i || !(s.isValid i) then none
  else some (s.values.getD i default)

end NodeAttributeStorage

/-- `NodeAttribute<T>::Iterator`: the member `storage` is a raw pointer that
is set to `nullptr` when the iterator is exhausted; `live` models whether it
is non-null.  `idx` is the current index. -/
structure Iterator where
  live : Bool
  idx : Nat
deriving DecidableEq, Repr

/-- `Iterator::operator==`:
`if (storage == nullptr && iter.storage == nullptr) return true;
 return storage != nullptr && idx == iter.idx;`
Note that the right-hand side's null-ness is ignored: a live iterator is
compared with `end()` (whose `idx` is 0) purely by index. -/
def iterEq (a b : Iterator) : Bool :=
  if !a.live && !b.live then true
  else a.live && a.idx == b.idx

/-- `NodeAttribute<T>::end()`: `Iterator(nullptr)`, which leaves `idx = 0`. -/
def iterEnd : Iterator :=
  ⟨false, 0⟩

namespace NodeAttributeStorage

variable {T : Type}

/-- The loop body of `Iterator::nextValid`, structurally recursive on the
remaining distance to `values.size()`:
`while (storage && !storage->isValid(idx)) {
   if (idx >= storage->values.size()) { storage = nullptr; return *this; }
   ++idx; }`.
Called with `k = values.length - idx` this is exactly the source loop: when
`k = 0` we have `idx ≥ values.length`, so after a failed `isValid` test the
loop nulls the pointer and stops. -/
def nextValidAux (s : NodeAttributeStorage T) : Nat → Nat → Iterator
  | 0, idx => if s.isValid idx then ⟨true, idx⟩ else ⟨false, idx⟩
  | k + 1, idx =>
    if s.isValid idx then ⟨true, idx⟩
    else if s.values.length ≤ idx then ⟨false, idx⟩
    else s.nextValidAux k (idx + 1)

/-- `Iterator::nextValid` on an iterator state: a dead iterator is left
alone (the loop guard `storage && ...` fails immediately). -/
def nextValid (s : NodeAttributeStorage T) (it : Iterator) : Iterator :=
  if it.live then s.nextValidAux (s.values.length - it.idx) it.idx else it

/-- `Iterator::operator++`: `++idx; return nextValid();` (only ever invoked
on a live iterator; the loop below guards the null case, on which the code
would throw). -/
def inc (s : NodeAttributeStorage T) (it : Iterator) : Iterator :=
  s.nextValid ⟨it.live, it.idx + 1⟩

/-- `NodeAttribute<T>::begin()`: `Iterator(owned_storage.get()).nextValid()`.
The constructor already runs `nextValid()` once (the pointer is non-null),
and `begin` runs it again. -/
def begin (s : NodeAttributeStorage T) : Iterator :=
  s.nextValid (s.nextValid ⟨true, 0⟩)

/-- The canonical traversal loop, as written in `main.cpp`:
`for (auto it = a.begin(); it != a.end(); ++it)` collecting
`it.nodeValuePair()`, i.e. `(idx, values[idx])`, at every step.  `fuel`
only bounds the recursion; `valid.length + 1` is always enough because the
loop yields strictly increasing indices, each below `valid.length`. -/
def travLoop [Inhabited T] (s : NodeAttributeStorage T) : Nat → Iterator → List (Nat × T)
  | 0, _ => []
  | fuel + 1, it =>
    if iterEq it iterEnd then []
    else (it.idx, s.values.getD it.idx default) :: s.travLoop fuel (s.inc it)

/-- A full iteration over the column: `begin()` up to `end()`. -/
def iterate [Inhabited T] (s : NodeAttributeStorage T) : List (Nat × T) :=
  s.travLoop (s.valid.length + 1) s.begin

end NodeAttributeStorage

/-- `NodeAttribute<T>`: a handle object.  `sid` is the index (in the world's
storage heap) of the column the shared pointer `owned_storage` refers to;
`valid` is the handle's aliveness flag. -/
structure NodeAttribute where
  sid : Nat
  valid : Bool
deriving DecidableEq, Repr

/-- Flips `valid := false` on every handle whose id (position in the handle
heap, counted from `k`) lies in `ids`.  This is the net effect of
`NodeAttributeStorage<T>::invalidateAttributes`
(`for (auto att : attrSet) att->invalidateAttribute();`): the visit order
over the `unordered_set` is irrelevant because the flips commute. -/
def invalidateFrom (ids : List Nat) : Nat → List NodeAttribute → List NodeAttribute
  | _, [] => []
  | k, h :: t =>
    (if ids.contains k then { h with valid := false } else h) :: invalidateFrom ids (k + 1) t

/-- `NodeAttributeMap`, together with the heaps of C++ objects the claims
talk about: `attrMap` is the `name → storage` directory (an association
list with unique names: `attach` refuses duplicates); `storages` is the
heap of columns, indexed by storage id (a column is never physically
removed from the model heap — after `detach` the live handles still share
ownership, and a heap entry without references is simply never touched
again); `handles` is the heap of `NodeAttribute` objects ever constructed,
indexed by handle id (a destroyed handle stays as an inert record and is
removed from its column's `attrSet`). -/
structure NodeAttributeMap where
  attrMap : List (String × Nat)
  storages : List (NodeAttributeStorage Val)
  handles : List NodeAttribute
deriving Repr

namespace NodeAttributeMap

/-- A fresh registry. -/
def empty : NodeAttributeMap :=
  { attrMap := [], storages := [], handles := [] }

/-- `NodeAttributeMap::find` as a lookup: the iterator into `attrMap`, or
"No such attribute". -/
def findName (r : NodeAttributeMap) (n : String) : Option (String × Nat) :=
  r.attrMap.find? (fun p => p.1 == n)

/-- `NodeAttributeMap::attach<T>(name)`: builds a fresh
`NodeAttributeStorage<T>(name)`, tries to insert it into `attrMap` (failure
throws "Attribute with same name already exists" and the temporary storage
dies, leaving the registry unchanged), then constructs a `NodeAttribute`
bound to it, which registers itself in the column's `attrSet`.  Returns the
new handle's id. -/
def attach (r : NodeAttributeMap) (t : Ty) (n : String) :
    Except AttrError Nat × NodeAttributeMap :=
  if (r.findName n).isSome then (.error .duplicateName, r)
  else
    let sid := r.storages.length
    let hid := r.handles.length
    let st : NodeAttributeStorage Val :=
      { NodeAttributeStorage.emptyCol n t with attrSet := [hid] }
    (.ok hid,
     { attrMap := (n, sid) :: r.attrMap,
       storages := r.storages ++ [st],
       handles := r.handles ++ [⟨sid, true⟩] })

/-- `NodeAttributeMap::detach(name)`: finds the entry (or throws "No such
attribute"), calls `invalidateAttributes()` on the column — flipping every
registered handle's `valid` flag to `false` — and erases the entry from
`attrMap`.  The column itself survives as long as handles share ownership
of it (the model keeps the heap entry). -/
def detach (r : NodeAttributeMap) (n : String) :
    Except AttrError Unit × NodeAttributeMap :=
  match r.findName n with
  | none => (.error .notFound, r)
  | some p =>
    match r.storages[p.2]? with
    | none => (.error .bad, r)
    | some s =>
      (.ok (),
       { r with
         attrMap := r.attrMap.filter (fun q => !(q.1 == n)),
         handles := invalidateFrom s.attrSet 0 r.handles })

/-- `NodeAttributeMap::get<T>(name)`: finds the entry (or throws "No such
attribute"), throws "Type mismatch in nodeAttributes().get()" when the
stored `type_index` differs from `typeid(T)`, and otherwise constructs a
new `NodeAttribute` sharing the existing column, which registers itself in
the column's `attrSet`. -/
def getAttr (r : NodeAttributeMap) (t : Ty) (n : String) :
    Except AttrError Nat × NodeAttributeMap :=
  match r.findName n with
  | none => (.error .notFound, r)
  | some p =>
    match r.storages[p.2]? with
    | none => (.error .bad, r)
    | some s =>
      if s.type ≠ t then (.error .typeMismatch, r)
      else
        let hid := r.handles.length
        (.ok hid,
         { r with
           handles := r.handles ++ [⟨p.2, true⟩],
           storages := r.storages.set p.2 { s with attrSet := hid :: s.attrSet } })

/-- `NodeAttribute<T>::NodeAttribute(NodeAttribute const&)`: the copy
binds to the same column, copies the `valid` flag, and registers itself in
the column's `attrSet`.  Returns the new handle's id. -/
def copyHandle (r : NodeAttributeMap) (hid : Nat) :
    Except AttrError Nat × NodeAttributeMap :=
  match r.handles[hid]? with
  | none => (.error .bad, r)
  | some h =>
    match r.storages[h.sid]? with
    | none => (.error .bad, r)
    | some s =>
      let hid2 := r.handles.length
      (.ok hid2,
       { r with
         handles := r.handles ++ [⟨h.sid, h.valid⟩],
         storages := r.storages.set h.sid { s with attrSet := hid2 :: s.attrSet } })

/-- `NodeAttribute<T>::~NodeAttribute`: erases the handle from its column's
`attrSet`.  The handle record itself becomes inert (C++ would make any
further use of it undefined). -/
def destroyHandle (r : NodeAttributeMap) (hid : Nat) : NodeAttributeMap :=
  match r.handles[hid]? with
  | none => r
  | some h =>
    match r.storages[h.sid]? with
    | none => r
    | some s =>
      { r with
        storages := r.storages.set h.sid
          { s with attrSet := s.attrSet.filter (fun x => !(x == hid)) } }

/-- `NodeAttribute<T>::set`: `checkAttribute()` throws "Invalid attribute"
when the handle's flag is down; otherwise delegates to the column's `set`. -/
def hSet (r : NodeAttributeMap) (hid i : Nat) (v : Val) :
    Except AttrError Unit × NodeAttributeMap :=
  match r.handles[hid]? with
  | none => (.error .bad, r)
  | some h =>
    if !h.valid then (.error .handleInvalid, r)
    else
      match r.storages[h.sid]? with
      | none => (.error .bad, r)
      | some s => (.ok (), { r with storages := r.storages.set h.sid (s.set i v) })

/-- `NodeAttribute<T>::get`: `checkAttribute()` then the column's `get`.
Read-only, so no registry is returned. -/
def hGet (r : NodeAttributeMap) (hid i : Nat) : Except AttrError (Option Val) :=
  match r.handles[hid]? with
  | none => .error .bad
  | some h =>
    if !h.valid then .error .handleInvalid
    else
      match r.storages[h.sid]? with
      | none => .error .bad
      | some s => .ok (s.get i)

/-- `NodeAttribute<T>::size`: `return owned_storage->size();` — note there
is no `checkAttribute()` here. -/
def hSize (r : NodeAttributeMap) (hid : Nat) : Except AttrError Nat :=
  match r.handles[hid]? with
  | none => .error .bad
  | some h =>
    match r.storages[h.sid]? with
    | none => .error .bad
    | some s => .ok s.size

/-- A full iteration through a handle: `begin()`/`end()` never call
`checkAttribute()`, so the handle's `valid` flag is not consulted; the
traversal runs on the (still shared-owned) column.  The guarded loop never
reaches the iterator's throwing paths (`operator++`/`operator*` on an
exhausted iterator), so iteration itself throws nothing. -/
def hIterate (r : NodeAttributeMap) (hid : Nat) : Except AttrError (List (Nat × Val)) :=
  match r.handles[hid]? with
  | none => .error .bad
  | some h =>
    match r.storages[h.sid]? with
    | none => .error .bad
    | some s => .ok s.iterate

end NodeAttributeMap

/-! ## Reachable column states

`ReachableCol` closes the empty column under every operation of the public
surface that touches a column: `set`, `invalidate` (the host-graph
notification), and handle (un)registration.  `get`, `isValid`, `size` and
iteration do not mutate the column. -/

inductive ReachableCol {T : Type} [Inhabited T] : NodeAttributeStorage T → Prop where
  | empty (n : String) (t : Ty) : ReachableCol (NodeAttributeStorage.emptyCol n t)
  | set {s : NodeAttributeStorage T} (i : Nat) (v : T) :
      ReachableCol s → ReachableCol (s.set i v)
  | inval {s : NodeAttributeStorage T} (i : Nat) :
      ReachableCol s → ReachableCol (s.invalidate i)
  | reg {s : NodeAttributeStorage T} (hid : Nat) :
      ReachableCol s → ReachableCol { s with attrSet := hid :: s.attrSet }
  | unreg {s : NodeAttributeStorage T} (hid : Nat) :
      ReachableCol s → ReachableCol
        { s with attrSet := s.attrSet.filter (fun x => !(x == hid)) }

/-! ## Registry transitions

`Step r r'` holds when one call of the public API takes the world `r` to
`r'` (the state after the call, whether it returned normally or threw). -/

inductive Step : NodeAttributeMap → NodeAttributeMap → Prop where
  | attach (r : NodeAttributeMap) (t : Ty) (n : String) :
      Step r (r.attach t n).2
  | detach (r : NodeAttributeMap) (n : String) :
      Step r (r.detach n).2
  | getAttr (r : NodeAttributeMap) (t : Ty) (n : String) :
      Step r (r.getAttr t n).2
  | hSet (r : NodeAttributeMap) (hid i : Nat) (v : Val) :
      Step r (r.hSet hid i v).2
  | copy (r : NodeAttributeMap) (hid : Nat) :
      Step r (r.copyHandle hid).2
  | destroy (r : NodeAttributeMap) (hid : Nat) :
      Step r (r.destroyHandle hid)

/-! ## Basic lemmas about columns -/

namespace NodeAttributeStorage

variable {T : Type}

theorem values_set [Inhabited T] (s : NodeAttributeStorage T) (i : Nat) (v : T) :
    (s.set i v).values = (s.resize i).values.set i v :=
  rfl

theorem valid_set [Inhabited T] (s : NodeAttributeStorage T) (i : Nat) (v : T) :
    (s.set i v).valid =
      (if s.valid.length ≤ i
        then s.valid ++ List.replicate (i + 1 - s.valid.length) false
        else s.valid).set i true := by
  unfold set markValid resize
  split <;> rfl

theorem lt_length_values_resize [Inhabited T] (s : NodeAttributeStorage T) (i : Nat) :
    i < (s.resize i).values.length := by
  unfold resize
  split <;> simp_all <;> omega

theorem length_values_set [Inhabited T] (s : NodeAttributeStorage T) (i : Nat) (v : T) :
    (s.set i v).values.length =
      if s.values.length ≤ i then i + 1 else s.values.length := by
  rw [values_set, List.length_set]
  unfold resize
  split <;> simp_all <;> omega

theorem length_valid_set [Inhabited T] (s : NodeAttributeStorage T) (i : Nat) (v : T) :
    (s.set i v).valid.length =
      if s.valid.length ≤ i then i + 1 else s.valid.length := by
  rw [valid_set, List.length_set]
  split <;> simp_all <;> omega

theorem isValid_set_self [Inhabited T] (s : NodeAttributeStorage T) (i : Nat) (v : T) :
    (s.set i v).isValid i = true := by
  have hlen : i < (s.set i v).valid.length := by
    rw [length_valid_set]; split <;> omega
  unfold isValid
  rw [valid_set] at hlen ⊢
  rw [List.getD_eq_getElem?_getD,
    List.getElem?_set_eq_of_lt true (by simpa using hlen)]
  simpa using hlen

theorem get_set_self [Inhabited T] (s : NodeAttributeStorage T) (i : Nat) (v : T) :
    (s.set i v).get i = some v := by
  have hlen : i < (s.set i v).values.length := by
    rw [length_values_set]; split <;> omega
  unfold get
  rw [isValid_set_self]
  rw [values_set] at hlen ⊢
  rw [List.getD_eq_getElem?_getD,
    List.getElem?_set_eq_of_lt v (by simpa using hlen)]
  simp [Nat.not_le.mpr (by simpa using hlen)]

theorem values_invalidate (s : NodeAttributeStorage T) (i : Nat) :
    (s.invalidate i).values = s.values :=
  rfl

theorem length_valid_invalidate (s : NodeAttributeStorage T) (i : Nat) :
    (s.invalidate i).valid.length = s.valid.length := by
  unfold invalidate
  split <;> simp

theorem isValid_true_lt_length {s : NodeAttributeStorage T} {i : Nat}
    (h : s.isValid i = true) : i < s.valid.length := by
  unfold isValid at h
  exact of_decide_eq_true (Bool.and_elim_left h)

end NodeAttributeStorage

/-! ## Basic lemmas about the registry and its handles -/

namespace NodeAttributeMap

theorem invalidateFrom_getElem? (ids : List Nat) (hs : List NodeAttribute)
    (k j : Nat) :
    (invalidateFrom ids k hs)[j]? =
      (hs[j]?).map
        (fun h => if ids.contains (k + j) then { h with valid := false } else h) := by
  induction hs generalizing k j with
  | nil => simp [invalidateFrom]
  | cons h t ih =>
    cases j with
    | zero => simp [invalidateFrom]
    | succ j =>
      have := ih (k + 1) j
      simpa [invalidateFrom, Nat.add_assoc, Nat.add_comm 1 j] using this

theorem hSet_eq {r : NodeAttributeMap} {hid sid : Nat} {s : NodeAttributeStorage Val}
    (i : Nat) (v : Val)
    (hh : r.handles[hid]? = some ⟨sid, true⟩)
    (hs : r.storages[sid]? = some s) :
    r.hSet hid i v = (.ok (), { r with storages := r.storages.set sid (s.set i v) }) := by
  simp [hSet, hh, hs]

theorem hGet_eq {r : NodeAttributeMap} {hid sid : Nat} {s : NodeAttributeStorage Val}
    (i : Nat)
    (hh : r.handles[hid]? = some ⟨sid, true⟩)
    (hs : r.storages[sid]? = some s) :
    r.hGet hid i = .ok (s.get i) := by
  simp [hGet, hh, hs]

theorem hGet_dead {r : NodeAttributeMap} {hid sid : Nat} (i : Nat)
    (hh : r.handles[hid]? = some ⟨sid, false⟩) :
    r.hGet hid i = .error .handleInvalid := by
  simp [hGet, hh]

theorem hSet_dead {r : NodeAttributeMap} {hid sid : Nat} (i : Nat) (v : Val)
    (hh : r.handles[hid]? = some ⟨sid, false⟩) :
    r.hSet hid i v = (.error .handleInvalid, r) := by
  simp [hSet, hh]

/-- Two live handles on the same column: a `set` through the first is
observed by a `get` through the second. -/
theorem hSet_hGet_same_column {r : NodeAttributeMap} {h1 h2 sid : Nat}
    {s : NodeAttributeStorage Val} (i : Nat) (v : Val)
    (h1h : r.handles[h1]? = some ⟨sid, true⟩)
    (h2h : r.handles[h2]? = some ⟨sid, true⟩)
    (hs : r.storages[sid]? = some s) :
    (r.hSet h1 i v).1 = .ok () ∧ ((r.hSet h1 i v).2).hGet h2 i = .ok (some v) := by
  obtain ⟨hlt, -⟩ := List.getElem?_eq_some.mp hs
  rw [hSet_eq i v h1h hs]
  refine ⟨rfl, ?_⟩
  show ({ r with storages := r.storages.set sid (s.set i v) } : NodeAttributeMap).hGet h2 i
    = .ok (some v)
  rw [hGet_eq i
    (show ({ r with storages := r.storages.set sid (s.set i v) } :
        NodeAttributeMap).handles[h2]? = some ⟨sid, true⟩ from h2h)
    (by simpa using List.getElem?_set_eq_of_lt (s.set i v) hlt)]
  rw [NodeAttributeStorage.get_set_self]

end NodeAttributeMap

/-- `attach` leaves the handle heap alone or appends one handle. -/
theorem attach_handles (r : NodeAttributeMap) (t : Ty) (n : String) :
    (r.attach t n).2.handles = r.handles ∨
      ∃ a, (r.attach t n).2.handles = r.handles ++ [a] := by
  unfold NodeAttributeMap.attach
  split
  · exact Or.inl rfl
  · exact Or.inr ⟨_, rfl⟩

/-- `detach` leaves the handle heap alone or flips a set of handles dead. -/
theorem detach_handles (r : NodeAttributeMap) (n : String) :
    (r.detach n).2.handles = r.handles ∨
      ∃ ids, (r.detach n).2.handles = invalidateFrom ids 0 r.handles := by
  cases hf : r.findName n with
  | none => exact Or.inl (by simp [NodeAttributeMap.detach, hf])
  | some p =>
    cases hg : r.storages[p.2]? with
    | none => exact Or.inl (by simp [NodeAttributeMap.detach, hf, hg])
    | some s => exact Or.inr ⟨s.attrSet, by simp [NodeAttributeMap.detach, hf, hg]⟩

/-- `get<T>(name)` leaves the handle heap alone or appends one handle. -/
theorem getAttr_handles (r : NodeAttributeMap) (t : Ty) (n : String) :
    (r.getAttr t n).2.handles = r.handles ∨
      ∃ a, (r.getAttr t n).2.handles = r.handles ++ [a] := by
  cases hf : r.findName n with
  | none => exact Or.inl (by simp [NodeAttributeMap.getAttr, hf])
  | some p =>
    cases hg : r.storages[p.2]? with
    | none => exact Or.inl (by simp [NodeAttributeMap.getAttr, hf, hg])
    | some s =>
      by_cases ht : s.type = t
      · exact Or.inr ⟨⟨p.2, true⟩, by simp [NodeAttributeMap.getAttr, hf, hg, ht]⟩
      · exact Or.inl (by simp [NodeAttributeMap.getAttr, hf, hg, ht])

/-- `Handle::set` never touches the handle heap. -/
theorem hSet_handles (r : NodeAttributeMap) (hid i : Nat) (v : Val) :
    (r.hSet hid i v).2.handles = r.handles := by
  cases hh : r.handles[hid]? with
  | none => simp [NodeAttributeMap.hSet, hh]
  | some h =>
    cases hv : h.valid with
    | false => simp [NodeAttributeMap.hSet, hh, hv]
    | true =>
      cases hg : r.storages[h.sid]? with
      | none => simp [NodeAttributeMap.hSet, hh, hv, hg]
      | some s => simp [NodeAttributeMap.hSet, hh, hv, hg]

/-- Copying a handle appends one handle to the heap. -/
theorem copyHandle_handles (r : NodeAttributeMap) (hid : Nat) :
    (r.copyHandle hid).2.handles = r.handles ∨
      ∃ a, (r.copyHandle hid).2.handles = r.handles ++ [a] := by
  cases hh : r.handles[hid]? with
  | none => exact Or.inl (by simp [NodeAttributeMap.copyHandle, hh])
  | some h =>
    cases hg : r.storages[h.sid]? with
    | none => exact Or.inl (by simp [NodeAttributeMap.copyHandle, hh, hg])
    | some s => exact Or.inr ⟨⟨h.sid, h.valid⟩, by simp [NodeAttributeMap.copyHandle, hh, hg]⟩

/-- Destroying a handle never touches the handle heap (it only edits the
column's `attrSet`). -/
theorem destroyHandle_handles (r : NodeAttributeMap) (hid : Nat) :
    (r.destroyHandle hid).handles = r.handles := by
  cases hh : r.handles[hid]? with
  | none => simp [NodeAttributeMap.destroyHandle, hh]
  | some h =>
    cases hg : r.storages[h.sid]? with
    | none => simp [NodeAttributeMap.destroyHandle, hh, hg]
    | some s => simp [NodeAttributeMap.destroyHandle, hh, hg]

/-- Destroying a handle never changes the number of columns in the heap. -/
theorem destroyHandle_storages_length (r : NodeAttributeMap) (hid : Nat) :
    (r.destroyHandle hid).storages.length = r.storages.length := by
  cases hh : r.handles[hid]? with
  | none => simp [NodeAttributeMap.destroyHandle, hh]
  | some h =>
    cases hg : r.storages[h.sid]? with
    | none => simp [NodeAttributeMap.destroyHandle, hh, hg]
    | some s => simp [NodeAttributeMap.destroyHandle, hh, hg]

/-- A live handle keeps round-tripping `set`/`get` after any other handle
object is destroyed: the destructor only edits the column's `attrSet`. -/
theorem hSet_hGet_after_destroy {r : NodeAttributeMap} {hid sid : Nat} (dk : Nat)
    (hh : r.handles[hid]? = some ⟨sid, true⟩)
    (hlt : sid < r.storages.length) (i : Nat) (v : Val) :
    ((r.destroyHandle dk).hSet hid i v).1 = .ok () ∧
    (((r.destroyHandle dk).hSet hid i v).2).hGet hid i = .ok (some v) := by
  have hh' : (r.destroyHandle dk).handles[hid]? = some ⟨sid, true⟩ := by
    rw [destroyHandle_handles]
    exact hh
  have hlen : sid < (r.destroyHandle dk).storages.length := by
    rw [destroyHandle_storages_length]
    exact hlt
  exact NodeAttributeMap.hSet_hGet_same_column i v hh' hh'
    (List.getElem?_eq_getElem hlen)

/-- A handle whose `valid` flag is down stays down (with the same column
binding) across every API call: nothing ever re-validates a handle. -/
theorem step_preserves_dead {r r' : NodeAttributeMap} (st : Step r r')
    {hid sid : Nat} (hh : r.handles[hid]? = some ⟨sid, false⟩) :
    r'.handles[hid]? = some ⟨sid, false⟩ := by
  obtain ⟨hlt, -⟩ := List.getElem?_eq_some.mp hh
  have killOf : ∀ ids : List Nat,
      (invalidateFrom ids 0 r.handles)[hid]? = some ⟨sid, false⟩ := by
    intro ids
    rw [NodeAttributeMap.invalidateFrom_getElem?, hh, Option.map_some']
    split <;> rfl
  have appendOf : ∀ a : NodeAttribute,
      (r.handles ++ [a])[hid]? = some ⟨sid, false⟩ := by
    intro a
    rw [List.getElem?_append_left hlt]
    exact hh
  cases st with
  | attach t n =>
    rcases attach_handles r t n with h | ⟨a, h⟩ <;> rw [h]
    · exact hh
    · exact appendOf a
  | detach n =>
    rcases detach_handles r n with h | ⟨ids, h⟩ <;> rw [h]
    · exact hh
    · exact killOf ids
  | getAttr t n =>
    rcases getAttr_handles r t n with h | ⟨a, h⟩ <;> rw [h]
    · exact hh
    · exact appendOf a
  | hSet h2 i v =>
    rw [hSet_handles]
    exact hh
  | copy h2 =>
    rcases copyHandle_handles r h2 with h | ⟨a, h⟩ <;> rw [h]
    · exact hh
    · exact appendOf a
  | destroy h2 =>
    rw [destroyHandle_handles]
    exact hh

/-- `Step.preserves_dead`, extended to arbitrary sequences of API calls. -/
theorem steps_preserve_dead {r r' : NodeAttributeMap}
    (hsteps : Relation.ReflTransGen Step r r')
    {hid sid : Nat} (hh : r.handles[hid]? = some ⟨sid, false⟩) :
    r'.handles[hid]? = some ⟨sid, false⟩ := by
  induction hsteps with
  | refl => exact hh
  | tail _ st ih => exact step_preserves_dead st ih

/-! ## Equations for the registry operations under explicit lookups -/

namespace NodeAttributeMap

theorem attach_eq_dup {r : NodeAttributeMap} {n : String} (t : Ty)
    (h : (r.findName n).isSome) :
    r.attach t n = (.error .duplicateName, r) := by
  simp [attach, h]

theorem attach_eq_ok {r : NodeAttributeMap} {n : String} (t : Ty)
    (h : r.findName n = none) :
    r.attach t n =
      (.ok r.handles.length,
       { attrMap := (n, r.storages.length) :: r.attrMap,
         storages := r.storages ++
           [{ NodeAttributeStorage.emptyCol n t with attrSet := [r.handles.length] }],
         handles := r.handles ++ [⟨r.storages.length, true⟩] }) := by
  simp [attach, h]

theorem detach_eq {r : NodeAttributeMap} {n : String} {p : String × Nat}
    {s : NodeAttributeStorage Val}
    (hf : r.findName n = some p) (hs : r.storages[p.2]? = some s) :
    r.detach n =
      (.ok (),
       { r with
         attrMap := r.attrMap.filter (fun q => !(q.1 == n)),
         handles := invalidateFrom s.attrSet 0 r.handles }) := by
  simp [detach, hf, hs]

theorem getAttr_eq_mismatch {r : NodeAttributeMap} {n : String} {p : String × Nat}
    {s : NodeAttributeStorage Val} (t : Ty)
    (hf : r.findName n = some p) (hs : r.storages[p.2]? = some s)
    (ht : s.type ≠ t) :
    r.getAttr t n = (.error .typeMismatch, r) := by
  simp [getAttr, hf, hs, ht]

theorem getAttr_eq_ok {r : NodeAttributeMap} {n : String} {p : String × Nat}
    {s : NodeAttributeStorage Val} {t : Ty}
    (hf : r.findName n = some p) (hs : r.storages[p.2]? = some s)
    (ht : s.type = t) :
    r.getAttr t n =
      (.ok r.handles.length,
       { r with
         handles := r.handles ++ [⟨p.2, true⟩],
         storages := r.storages.set p.2
           { s with attrSet := r.handles.length :: s.attrSet } }) := by
  simp [getAttr, hf, hs, ht]

theorem copyHandle_eq {r : NodeAttributeMap} {hid : Nat} {h : NodeAttribute}
    {s : NodeAttributeStorage Val}
    (hh : r.handles[hid]? = some h) (hs : r.storages[h.sid]? = some s) :
    r.copyHandle hid =
      (.ok r.handles.length,
       { r with
         handles := r.handles ++ [⟨h.sid, h.valid⟩],
         storages := r.storages.set h.sid
           { s with attrSet := r.handles.length :: s.attrSet } }) := by
  simp [copyHandle, hh, hs]

theorem destroyHandle_eq {r : NodeAttributeMap} {hid : Nat} {h : NodeAttribute}
    {s : NodeAttributeStorage Val}
    (hh : r.handles[hid]? = some h) (hs : r.storages[h.sid]? = some s) :
    r.destroyHandle hid =
      { r with
        storages := r.storages.set h.sid
          { s with attrSet := s.attrSet.filter (fun x => !(x == hid)) } } := by
  simp [destroyHandle, hh, hs]

theorem hIterate_eq {r : NodeAttributeMap} {hid : Nat} {h : NodeAttribute}
    {s : NodeAttributeStorage Val}
    (hh : r.handles[hid]? = some h) (hs : r.storages[h.sid]? = some s) :
    r.hIterate hid = .ok s.iterate := by
  simp [hIterate, hh, hs]

theorem hSize_eq {r : NodeAttributeMap} {hid : Nat} {h : NodeAttribute}
    {s : NodeAttributeStorage Val}
    (hh : r.handles[hid]? = some h) (hs : r.storages[h.sid]? = some s) :
    r.hSize hid = .ok s.size := by
  simp [hSize, hh, hs]

end NodeAttributeMap

/-- Every reachable column keeps `values` and `valid` at the same length. -/
theorem ReachableCol.length_eq {T : Type} [Inhabited T] {s : NodeAttributeStorage T}
    (h : ReachableCol s) : s.values.length = s.valid.length := by
  induction h with
  | empty n t => rfl
  | set i v _ ih =>
    simp [NodeAttributeStorage.length_values_set, NodeAttributeStorage.length_valid_set, ih]
  | inval i _ ih =>
    simpa [NodeAttributeStorage.values_invalidate,
      NodeAttributeStorage.length_valid_invalidate] using ih
  | reg hid _ ih => exact ih
  | unreg hid _ ih => exact ih

/-! ## The claims -/

/-- Claim C1 (code bug): Scenario A.  On a fresh registry,
`attach<int>("color")` succeeds (handle id 0), `set(0, 33)` succeeds, and
`size()` is 1 — but a full `begin()`/`end()` iteration yields the empty
list rather than `[(0, 33)]`: the live iterator positioned at index 0
compares equal to `end()` (whose `idx` is 0), because
`Iterator::operator==` ignores the null-ness of its right-hand side and
compares indices, so the loop `it != end()` stops immediately. -/
theorem claim_C1 :
    (NodeAttributeMap.empty.attach Ty.tInt "color").1 = .ok 0 ∧
    ((NodeAttributeMap.empty.attach Ty.tInt "color").2.hSet 0 0 (Val.vInt 33)).1 = .ok () ∧
    ((NodeAttributeMap.empty.attach Ty.tInt "color").2.hSet 0 0 (Val.vInt 33)).2.hIterate 0
      = .ok [] ∧
    ((NodeAttributeMap.empty.attach Ty.tInt "color").2.hSet 0 0 (Val.vInt 33)).2.hSize 0
      = .ok 1 :=
  ⟨rfl, rfl, rfl, rfl⟩

/-- Claim C2 (code bug): on the column obtained from a fresh column by
`set(0, 33)`, index 0 is valid and `size()` is 1, yet the full traversal
started with `begin()` visits nothing: the claim "a full traversal visits
exactly the valid indices and the number of visited pairs equals `size()`"
fails at this column (0 pairs visited, 1 valid index, `size() = 1`). -/
theorem claim_C2 :
    ((NodeAttributeStorage.emptyCol "color" Ty.tInt : NodeAttributeStorage Val).set 0
      (Val.vInt 33)).isValid 0 = true ∧
    ((NodeAttributeStorage.emptyCol "color" Ty.tInt : NodeAttributeStorage Val).set 0
      (Val.vInt 33)).iterate = [] ∧
    ((NodeAttributeStorage.emptyCol "color" Ty.tInt : NodeAttributeStorage Val).set 0
      (Val.vInt 33)).size = 1 :=
  ⟨rfl, rfl, rfl⟩

/-- Claim C3 (code bug): `set` on an index whose validity bit is already
`true` must leave `validCount` unchanged, but `markValid` increments
`validElements` unconditionally: after `set(0, 33)` the count is 1 and
index 0 is valid, and a second `set(0, 33)` drives the count to 2. -/
theorem claim_C3 :
    ((NodeAttributeStorage.emptyCol "c" Ty.tInt : NodeAttributeStorage Val).set 0
      (Val.vInt 33)).validElements = 1 ∧
    ((NodeAttributeStorage.emptyCol "c" Ty.tInt : NodeAttributeStorage Val).set 0
      (Val.vInt 33)).isValid 0 = true ∧
    (((NodeAttributeStorage.emptyCol "c" Ty.tInt : NodeAttributeStorage Val).set 0
      (Val.vInt 33)).set 0 (Val.vInt 33)).validElements = 2 :=
  ⟨rfl, rfl, rfl⟩

/-- Claim C4 (code bug): `invalidate` on an already-invalid index must
leave `validCount` unchanged, but the code decrements `validElements`
unconditionally (outside the range check): after `set(0, 33)` and a first
`invalidate(0)` the count is 0 and index 0 is invalid, and a second
`invalidate(0)` wraps the `size_t` counter to `2 ^ 64 - 1`. -/
theorem claim_C4 :
    (((NodeAttributeStorage.emptyCol "c" Ty.tInt : NodeAttributeStorage Val).set 0
      (Val.vInt 33)).invalidate 0).isValid 0 = false ∧
    (((NodeAttributeStorage.emptyCol "c" Ty.tInt : NodeAttributeStorage Val).set 0
      (Val.vInt 33)).invalidate 0).validElements = 0 ∧
    ((((NodeAttributeStorage.emptyCol "c" Ty.tInt : NodeAttributeStorage Val).set 0
      (Val.vInt 33)).invalidate 0).invalidate 0).validElements = 18446744073709551615 :=
  ⟨rfl, rfl, rfl⟩

/-- Counterexample to claim C5 as stated: on a fresh registry, attach an
`int` column "a" (handle 0), `set(5, 33)`, then `detach("a")`.  The stale
handle's `get` does raise `HandleInvalid`, but iteration through that very
handle does not: `begin()`/`end()` never consult the handle's `valid` flag,
and the traversal silently yields the stale pair `(5, 33)`. -/
theorem claim_C5_counterexample :
    ((((NodeAttributeMap.empty.attach Ty.tInt "a").2.hSet 0 5 (Val.vInt 33)).2).detach
      "a").1 = .ok () ∧
    (((((NodeAttributeMap.empty.attach Ty.tInt "a").2.hSet 0 5 (Val.vInt 33)).2).detach
      "a").2).hGet 0 5 = .error .handleInvalid ∧
    (((((NodeAttributeMap.empty.attach Ty.tInt "a").2.hSet 0 5 (Val.vInt 33)).2).detach
      "a").2).hIterate 0 = .ok [(5, Val.vInt 33)] ∧
    (((((NodeAttributeMap.empty.attach Ty.tInt "a").2.hSet 0 5 (Val.vInt 33)).2).detach
      "a").2).hIterate 0 ≠ .error .handleInvalid :=
  ⟨rfl, rfl, rfl, fun hcontra => Except.noConfusion hcontra⟩

/-- Claim C5 (amended): after `detach(name)` succeeds, every handle
registered with the detached column is permanently invalid for `get` and
`set`: after any further sequence of API calls, `get` and `set` through
any such handle raise `HandleInvalid`.  (Iteration is excluded: `begin()`
does not check the handle flag — see the counterexample.) -/
theorem claim_C5 (r r1 r2 : NodeAttributeMap) (n : String) (p : String × Nat)
    (s : NodeAttributeStorage Val) (hid : Nat)
    (hf : r.findName n = some p)
    (hs : r.storages[p.2]? = some s)
    (hdet : r.detach n = (.ok (), r1))
    (hmem : hid ∈ s.attrSet)
    (hlt : hid < r.handles.length)
    (hsteps : Relation.ReflTransGen Step r1 r2) :
    (∀ i, r2.hGet hid i = .error .handleInvalid) ∧
    (∀ i v, r2.hSet hid i v = (.error .handleInvalid, r2)) := by
  have hD := NodeAttributeMap.detach_eq hf hs
  rw [hD] at hdet
  have hr1 : r1 =
      { r with
        attrMap := r.attrMap.filter (fun q => !(q.1 == n)),
        handles := invalidateFrom s.attrSet 0 r.handles } :=
    (congrArg Prod.snd hdet).symm
  have hh0 : r.handles[hid]? = some r.handles[hid] := List.getElem?_eq_getElem hlt
  have hc : s.attrSet.contains (0 + hid) = true := by
    rw [Nat.zero_add]
    exact List.elem_eq_true_of_mem hmem
  have hdead : r1.handles[hid]? = some ⟨(r.handles[hid]).sid, false⟩ := by
    rw [hr1]
    show (invalidateFrom s.attrSet 0 r.handles)[hid]? = _
    rw [NodeAttributeMap.invalidateFrom_getElem?, hh0, Option.map_some', if_pos hc]
  have hdead2 := steps_preserve_dead hsteps hdead
  exact ⟨fun i => NodeAttributeMap.hGet_dead i hdead2,
         fun i v => NodeAttributeMap.hSet_dead i v hdead2⟩

/-- Witness for C5 at a concrete input: attach an `int` column "a", detach
it, perform no further calls; `get(3)` and `set(3, 1)` through the stale
handle 0 raise `HandleInvalid`. -/
theorem claim_C5_witness :
    ((((NodeAttributeMap.empty.attach Ty.tInt "a").2).detach "a").2).hGet 0 3
        = .error .handleInvalid ∧
    ((((NodeAttributeMap.empty.attach Ty.tInt "a").2).detach "a").2).hSet 0 3 (Val.vInt 1)
        = (.error .handleInvalid,
           (((NodeAttributeMap.empty.attach Ty.tInt "a").2).detach "a").2) := by
  have C := claim_C5 ((NodeAttributeMap.empty.attach Ty.tInt "a").2) _ _ "a" ("a", 0)
    { name := "a", type := Ty.tInt, values := [], valid := [],
      validElements := 0, attrSet := [0] }
    0 rfl rfl rfl (by decide) (by decide) Relation.ReflTransGen.refl
  exact ⟨C.1 3, C.2 3 (Val.vInt 1)⟩

/-- Claim C7: a second `attach` under a name that is still attached fails
with `DuplicateName` and leaves the registry unchanged, and the handle
returned by the first `attach` stays fully functional (`set` succeeds and
the immediate `get` round-trips on the original column). -/
theorem claim_C7 (r r1 : NodeAttributeMap) (t1 t2 : Ty) (n : String) (hid : Nat)
    (h : r.attach t1 n = (.ok hid, r1)) :
    r1.attach t2 n = (.error .duplicateName, r1) ∧
    ∀ i v, (r1.hSet hid i v).1 = .ok () ∧
      ((r1.hSet hid i v).2).hGet hid i = .ok (some v) := by
  cases hfn : r.findName n with
  | some p =>
    rw [NodeAttributeMap.attach_eq_dup t1 (by simp [hfn])] at h
    simp at h
  | none =>
    rw [NodeAttributeMap.attach_eq_ok t1 hfn] at h
    injection h with hA hB
    injection hA with hA
    subst hA
    subst hB
    constructor
    · apply NodeAttributeMap.attach_eq_dup t2
      have hfind : NodeAttributeMap.findName
          { attrMap := (n, r.storages.length) :: r.attrMap,
            storages := r.storages ++
              [{ NodeAttributeStorage.emptyCol n t1 with attrSet := [r.handles.length] }],
            handles := r.handles ++ [⟨r.storages.length, true⟩] } n
          = some (n, r.storages.length) := by
        show List.find? _ ((n, r.storages.length) :: r.attrMap) = _
        exact List.find?_cons_of_pos _ (by simp)
      rw [hfind]
      rfl
    · intro i v
      have hh' : (r.handles ++ [⟨r.storages.length, true⟩])[r.handles.length]?
          = some (⟨r.storages.length, true⟩ : NodeAttribute) :=
        List.getElem?_concat_length _ _
      have hs' : (r.storages ++
          [{ NodeAttributeStorage.emptyCol n t1 with attrSet := [r.handles.length] }])[
            r.storages.length]?
          = some { NodeAttributeStorage.emptyCol n t1 with attrSet := [r.handles.length] } :=
        List.getElem?_concat_length _ _
      exact NodeAttributeMap.hSet_hGet_same_column i v hh' hh' hs'

/-- Witness for C7 at a concrete input: attaching "a" twice on a fresh
registry makes the second call fail with `DuplicateName` and leave the
state unchanged, while handle 0 still round-trips `set(2, 9)`/`get(2)`. -/
theorem claim_C7_witness :
    ((NodeAttributeMap.empty.attach Ty.tInt "a").2).attach Ty.tInt "a"
      = (.error .duplicateName, (NodeAttributeMap.empty.attach Ty.tInt "a").2) ∧
    ((NodeAttributeMap.empty.attach Ty.tInt "a").2.hSet 0 2 (Val.vInt 9)).1 = .ok () ∧
    (((NodeAttributeMap.empty.attach Ty.tInt "a").2.hSet 0 2 (Val.vInt 9)).2).hGet 0 2
      = .ok (some (Val.vInt 9)) := by
  have C := claim_C7 NodeAttributeMap.empty _ Ty.tInt Ty.tInt "a" 0 rfl
  exact ⟨C.1, (C.2 2 (Val.vInt 9)).1, (C.2 2 (Val.vInt 9)).2⟩

/-- Claim C9: copying a live handle yields a second, independently tracked
live handle bound to the same column; a `set` through the copy is observed
by a `get` through the original; destroying the copy leaves the original
fully functional; and detaching the column invalidates both handles. -/
theorem claim_C9 (r : NodeAttributeMap) (hid sid : Nat) (s : NodeAttributeStorage Val)
    (n : String) (p : String × Nat)
    (hh : r.handles[hid]? = some ⟨sid, true⟩)
    (hs : r.storages[sid]? = some s)
    (hmem : hid ∈ s.attrSet)
    (hf : r.findName n = some p)
    (hp : p.2 = sid) :
    (r.copyHandle hid).1 = .ok r.handles.length ∧
    ((r.copyHandle hid).2.handles[r.handles.length]? = some ⟨sid, true⟩ ∧
     (r.copyHandle hid).2.handles[hid]? = some ⟨sid, true⟩ ∧
     hid ≠ r.handles.length) ∧
    (∀ i v, ((r.copyHandle hid).2.hSet r.handles.length i v).1 = .ok () ∧
       (((r.copyHandle hid).2.hSet r.handles.length i v).2).hGet hid i = .ok (some v)) ∧
    (∀ i v,
       (((r.copyHandle hid).2.destroyHandle r.handles.length).hSet hid i v).1 = .ok () ∧
       ((((r.copyHandle hid).2.destroyHandle r.handles.length).hSet hid i v).2).hGet hid i
         = .ok (some v)) ∧
    (((r.copyHandle hid).2.detach n).1 = .ok () ∧
     (((r.copyHandle hid).2.detach n).2).handles[hid]? = some ⟨sid, false⟩ ∧
     (((r.copyHandle hid).2.detach n).2).handles[r.handles.length]? = some ⟨sid, false⟩) := by
  obtain ⟨hlt_h, -⟩ := List.getElem?_eq_some.mp hh
  obtain ⟨hlt_s, -⟩ := List.getElem?_eq_some.mp hs
  have hcp : r.copyHandle hid = (.ok r.handles.length,
      { r with
        handles := r.handles ++ [⟨sid, true⟩],
        storages := r.storages.set sid
          { s with attrSet := r.handles.length :: s.attrSet } }) :=
    NodeAttributeMap.copyHandle_eq hh hs
  have hfst := congrArg Prod.fst hcp
  have hsnd := congrArg Prod.snd hcp
  rw [hfst, hsnd]
  have hh2 : (r.handles ++ [⟨sid, true⟩])[r.handles.length]?
      = some (⟨sid, true⟩ : NodeAttribute) :=
    List.getElem?_concat_length _ _
  have hh1 : (r.handles ++ [⟨sid, true⟩])[hid]? = some (⟨sid, true⟩ : NodeAttribute) := by
    rw [List.getElem?_append_left hlt_h]
    exact hh
  have hs' : (r.storages.set sid { s with attrSet := r.handles.length :: s.attrSet })[sid]?
      = some { s with attrSet := r.handles.length :: s.attrSet } :=
    List.getElem?_set_eq_of_lt _ hlt_s
  refine ⟨rfl, ⟨hh2, hh1, Nat.ne_of_lt hlt_h⟩, ?_, ?_, ?_⟩
  · intro i v
    exact NodeAttributeMap.hSet_hGet_same_column i v hh2 hh1 hs'
  · intro i v
    exact hSet_hGet_after_destroy r.handles.length (by exact hh1)
      (by simpa using hlt_s) i v
  · have hf' : ({ r with
        handles := r.handles ++ [⟨sid, true⟩],
        storages := r.storages.set sid
          { s with attrSet := r.handles.length :: s.attrSet } } :
          NodeAttributeMap).findName n = some p := hf
    have hsd : ({ r with
        handles := r.handles ++ [⟨sid, true⟩],
        storages := r.storages.set sid
          { s with attrSet := r.handles.length :: s.attrSet } } :
          NodeAttributeMap).storages[p.2]?
        = some { s with attrSet := r.handles.length :: s.attrSet } := by
      rw [hp]
      exact hs'
    have hdet := NodeAttributeMap.detach_eq hf' hsd
    rw [hdet]
    refine ⟨rfl, ?_, ?_⟩
    · show (invalidateFrom (r.handles.length :: s.attrSet) 0
        (r.handles ++ [⟨sid, true⟩]))[hid]? = _
      have hc : (r.handles.length :: s.attrSet).contains (0 + hid) = true := by
        rw [Nat.zero_add]
        exact List.elem_eq_true_of_mem (List.mem_cons_of_mem _ hmem)
      rw [NodeAttributeMap.invalidateFrom_getElem?, hh1, Option.map_some', if_pos hc]
    · show (invalidateFrom (r.handles.length :: s.attrSet) 0
        (r.handles ++ [⟨sid, true⟩]))[r.handles.length]? = _
      have hc : (r.handles.length :: s.attrSet).contains (0 + r.handles.length) = true := by
        rw [Nat.zero_add]
        exact List.elem_eq_true_of_mem (List.mem_cons_self _ _)
      rw [NodeAttributeMap.invalidateFrom_getElem?, hh2, Option.map_some', if_pos hc]

/-- Witness for C9 at a concrete input: on a fresh registry with an `int`
column "a" and its original handle 0, copying handle 0 yields live handle 1
on the same column; `set(2, 7)` through handle 1 is seen by `get(2)`
through handle 0; after destroying handle 1, handle 0 still round-trips;
and `detach("a")` flips both handles dead. -/
theorem claim_C9_witness :
    ((NodeAttributeMap.empty.attach Ty.tInt "a").2.copyHandle 0).1 = .ok 1 ∧
    ((NodeAttributeMap.empty.attach Ty.tInt "a").2.copyHandle 0).2.handles[1]?
      = some ⟨0, true⟩ ∧
    ((NodeAttributeMap.empty.attach Ty.tInt "a").2.copyHandle 0).2.handles[0]?
      = some ⟨0, true⟩ ∧
    (0 : Nat) ≠ 1 ∧
    (((NodeAttributeMap.empty.attach Ty.tInt "a").2.copyHandle 0).2.hSet 1 2
      (Val.vInt 7)).1 = .ok () ∧
    ((((NodeAttributeMap.empty.attach Ty.tInt "a").2.copyHandle 0).2.hSet 1 2
      (Val.vInt 7)).2).hGet 0 2 = .ok (some (Val.vInt 7)) ∧
    ((((NodeAttributeMap.empty.attach Ty.tInt "a").2.copyHandle 0).2.destroyHandle 1).hSet
      0 2 (Val.vInt 7)).1 = .ok () ∧
    (((((NodeAttributeMap.empty.attach Ty.tInt "a").2.copyHandle 0).2.destroyHandle 1).hSet
      0 2 (Val.vInt 7)).2).hGet 0 2 = .ok (some (Val.vInt 7)) ∧
    (((NodeAttributeMap.empty.attach Ty.tInt "a").2.copyHandle 0).2.detach "a").1
      = .ok () ∧
    ((((NodeAttributeMap.empty.attach Ty.tInt "a").2.copyHandle 0).2.detach
      "a").2).handles[0]? = some ⟨0, false⟩ ∧
    ((((NodeAttributeMap.empty.attach Ty.tInt "a").2.copyHandle 0).2.detach
      "a").2).handles[1]? = some ⟨0, false⟩ := by
  have C := claim_C9 ((NodeAttributeMap.empty.attach Ty.tInt "a").2) 0 0
    { name := "a", type := Ty.tInt, values := [], valid := [],
      validElements := 0, attrSet := [0] }
    "a" ("a", 0) rfl rfl (by decide) rfl rfl
  exact ⟨C.1, C.2.1.1, C.2.1.2.1, C.2.1.2.2, (C.2.2.1 2 (Val.vInt 7)).1,
    (C.2.2.1 2 (Val.vInt 7)).2, (C.2.2.2.1 2 (Val.vInt 7)).1,
    (C.2.2.2.1 2 (Val.vInt 7)).2, C.2.2.2.2.1, C.2.2.2.2.2.1, C.2.2.2.2.2.2⟩

/-- Claim C6: on a live handle, `set(i, v)` followed immediately by
`get(i)` on the same handle returns `Some(v)` (stated as: whenever
`Handle::set` returns normally, the immediate `Handle::get` on the same
handle and index yields `some v`). -/
theorem claim_C6 (r r' : NodeAttributeMap) (hid i : Nat) (v : Val)
    (h : r.hSet hid i v = (.ok (), r')) :
    r'.hGet hid i = .ok (some v) := by
  cases hh : r.handles[hid]? with
  | none => simp [NodeAttributeMap.hSet, hh] at h
  | some hobj =>
    obtain ⟨sid0, hval⟩ := hobj
    cases hval with
    | false => simp [NodeAttributeMap.hSet, hh] at h
    | true =>
      cases hg : r.storages[sid0]? with
      | none => simp [NodeAttributeMap.hSet, hh, hg] at h
      | some s =>
        have key := NodeAttributeMap.hSet_hGet_same_column i v hh hh hg
        have h2 : (r.hSet hid i v).2 = r' := by rw [h]
        rw [h2] at key
        exact key.2

/-- Witness for C6 at a concrete input: on a fresh registry with an
attached `int` column, `set(4, 7)` through handle 0 succeeds and the
immediate `get(4)` returns `some 7`. -/
theorem claim_C6_witness :
    ((NodeAttributeMap.empty.attach Ty.tInt "a").2.hSet 0 4 (Val.vInt 7)).2.hGet 0 4
      = .ok (some (Val.vInt 7)) :=
  claim_C6 (NodeAttributeMap.empty.attach Ty.tInt "a").2 _ 0 4 (Val.vInt 7) rfl

/-- Claim C8: `get<T>(name)` on an attached column whose stored type tag is
`U ≠ T` returns `TypeMismatch` and leaves the whole registry — in
particular that column, its state and its live-handle set — untouched. -/
theorem claim_C8 (r : NodeAttributeMap) (t : Ty) (n : String) (p : String × Nat)
    (s : NodeAttributeStorage Val)
    (hf : r.findName n = some p) (hs : r.storages[p.2]? = some s)
    (ht : s.type ≠ t) :
    r.getAttr t n = (.error .typeMismatch, r) :=
  NodeAttributeMap.getAttr_eq_mismatch t hf hs ht

/-- Witness for C8 at a concrete input: `get<Point>("a")` on a registry
holding an `int` column named "a" returns `TypeMismatch` with the registry
unchanged. -/
theorem claim_C8_witness :
    (NodeAttributeMap.empty.attach Ty.tInt "a").2.getAttr Ty.tPoint "a"
      = (.error .typeMismatch, (NodeAttributeMap.empty.attach Ty.tInt "a").2) :=
  claim_C8 (NodeAttributeMap.empty.attach Ty.tInt "a").2 Ty.tPoint "a" ("a", 0) _
    rfl rfl (by decide)

/-- Claim C10: every column reachable from the empty column by the public
operations keeps `values` and `validity` at exactly the same length, so a
valid bit at `i` implies `i` is backed by storage (`i < len(values)`). -/
theorem claim_C10 {T : Type} [Inhabited T] (s : NodeAttributeStorage T)
    (h : ReachableCol s) :
    s.values.length = s.valid.length ∧
    ∀ i, s.isValid i = true → i < s.values.length := by
  refine ⟨h.length_eq, fun i hi => ?_⟩
  rw [h.length_eq]
  exact NodeAttributeStorage.isValid_true_lt_length hi

/-- Witness for C10 at a concrete input: the column built by `set(2, 5)`
then `invalidate(1)` has `values` and `valid` of equal length, and its
valid index 2 is inside `values`. -/
theorem claim_C10_witness :
    (((NodeAttributeStorage.emptyCol "c" Ty.tInt : NodeAttributeStorage Val).set 2
      (Val.vInt 5)).invalidate 1).values.length =
    (((NodeAttributeStorage.emptyCol "c" Ty.tInt : NodeAttributeStorage Val).set 2
      (Val.vInt 5)).invalidate 1).valid.length ∧
    2 < (((NodeAttributeStorage.emptyCol "c" Ty.tInt : NodeAttributeStorage Val).set 2
      (Val.vInt 5)).invalidate 1).values.length := by
  have C := claim_C10 _
    (ReachableCol.inval 1 (ReachableCol.set 2 (Val.vInt 5)
      (ReachableCol.empty (T := Val) "c" Ty.tInt)))
  exact ⟨C.1, C.2 2 rfl⟩

end A4N
